import Mathlib

/-!
Shallow embedding of the `compression` HTTP response-compression middleware
(`src/index.js`).  The middleware proxies a response's `write`/`end`/`on`
surface, fires a one-shot decision when headers commit, and either passes
activity through to the original transport or routes it into a codec stream.

Modelling conventions:
* a body chunk is a byte buffer, modelled as `List Nat`;
* an absent JavaScript argument / `undefined` value is `Option.none`;
* header values that the source reads numerically (`Content-Length`) are
  `Option Nat`, with JavaScript truthiness of a number: `0` is falsy;
* event-listener handlers are opaque tags (`Handler`); the middleware's own
  internal handlers (the codec `data`/`end` pump and the transport `drain`
  resume hook) get dedicated tags so replay bookkeeping is exact;
* the external collaborators (`accepts`, `bytes`, `compressible`, `vary`,
  zlib) are modelled at their documented interfaces where a claim needs
  them; zlib codec internals stay opaque (only the bytes fed in and the
  listener registry are tracked, which is all the claims concern).
-/

namespace Compression

/-- A body chunk: a byte buffer. -/
abbrev Chunk := List Nat

/-- An event handler.  `app id` is an application-supplied listener; the
other three tags are the middleware's internal handlers registered in the
`onHeaders` callback: the codec `data` pump, the codec `end` pump, and the
transport `drain` hook that resumes the codec (src/index.js lines 184-196). -/
inductive Handler where
  | app (id : Nat)
  | pumpData
  | pumpEnd
  | resume
deriving DecidableEq, Repr

/-- The response headers the source reads or writes: `Content-Length`
(read numerically via `Number(...)`), `Content-Encoding`, `Content-Type`,
and the `Vary` field values. -/
structure Headers where
  contentLength : Option Nat
  contentEncoding : Option String
  contentType : Option String
  vary : List String
deriving DecidableEq, Repr

/-- The request surface the source consults: `req.method` and the
accept-encoding information (a list of (encoding, weight) pairs in header
order) handed to the external negotiator. -/
structure Request where
  method : String
  accept : List (String × Nat)
deriving DecidableEq, Repr

/-- The lazily created codec stream (zlib gzip/deflate instance), tracked
as an opaque transform: which method built it, the chunks fed into it,
whether its input was ended, and its listener registry. -/
structure CodecState where
  method : String
  input : List Chunk
  ended : Bool
  listeners : List (String × Handler)
deriving DecidableEq, Repr

/-- The per-exchange state: the response's committed-header flag, its
headers, the middleware closure variables (`length`, `listeners`,
`stream`), the post-close no-op flag (src/index.js lines 60-62 replace
`res.write`/`res.end` with `noop`), the `res.flush` override flag, and the
original transport's observable state (bytes written through the captured
original `write`/`end`, ended flag, listener registry via the captured
original `on`). -/
structure ExchangeState where
  headerSent : Bool
  headers : Headers
  length : Option Nat
  listeners : Option (List (String × Handler))
  stream : Option CodecState
  closed : Bool
  flushToStream : Bool
  transportData : List Chunk
  transportEnded : Bool
  transportListeners : List (String × Handler)
deriving DecidableEq, Repr

/-- The middleware-instance configuration produced by `compression(options)`:
the parsed threshold and the eligibility filter. -/
structure Config where
  threshold : Int
  filter : Request → Headers → Bool

/-- Default filter `shouldCompress` (src/index.js lines 240-249): reads the
`Content-Type` header; an unset type, or a type the compressibility table
rejects, yields `false`.  Modelled from the spec where external: the
`compressible` MIME table is an opaque predicate, passed as a parameter. -/
def shouldCompress (compressibleFn : String → Bool) (_req : Request)
    (hdrs : Headers) : Bool :=
  match hdrs.contentType with
  | none => false
  | some ty => compressibleFn ty

/-- Construction `compression(options)` (src/index.js lines 40-49),
taking the external `bytes.parse` result for `opts.threshold` as input
(`none` when the option was absent or unparseable, per the `bytes`
contract).  The source body contains no validation and no throw: the
`Except` result is always `.ok`, with a `null` parse falling back to 1024. -/
def compressionInit (compressibleFn : String → Bool)
    (optsFilter : Option (Request → Headers → Bool))
    (parsedThreshold : Option Int) : Except String Config :=
  .ok { threshold := parsedThreshold.getD 1024
        filter := optsFilter.getD (shouldCompress compressibleFn) }

/-- Projection used to state construction outcomes (Config holds a
function, so whole-value equality is not decidable). -/
def thresholdOf : Except String Config → Option Int
  | .ok c => some c.threshold
  | .error _ => none

/-- Content-negotiation weight of an encoding: the weight of its first
occurrence in the accept list, `0` when unlisted.  Modelled from the spec:
the `accepts` collaborator is "a pure function mapping a request's
accept-encoding information and a candidate list to a chosen encoding or
none", honoring stated preferences/weights. -/
def qof (accept : List (String × Nat)) (e : String) : Nat :=
  match accept.find? (fun p => p.1 == e) with
  | some p => p.2
  | none => 0

/-- Position of an encoding in the accept list (header order), used to
break weight ties the way the negotiator does; unlisted encodings sort
last. -/
def headerPos (accept : List (String × Nat)) (e : String) : Nat :=
  match accept.findIdx? (fun p => p.1 == e) with
  | some i => i
  | none => accept.length

/-- Strict preference between two acceptable encodings: higher weight
wins, ties go to the one earlier in the accept list. -/
def betterEnc (accept : List (String × Nat)) (a b : String) : Bool :=
  qof accept b < qof accept a ||
    (qof accept a == qof accept b && headerPos accept a < headerPos accept b)

/-- One fold step of the negotiator: keep the current best candidate
unless the next one is strictly better (so earlier candidates win
remaining ties). -/
def pickEnc (accept : List (String × Nat)) (best : Option String)
    (c : String) : Option String :=
  match best with
  | none => some c
  | some b => if betterEnc accept c b then some c else some b

/-- Modelled from the spec: the external negotiator `accept.encoding(list)`.
Among the candidates the requester listed with positive weight, select the
one with the highest weight, ties broken by earlier position in the accept
header, then by earlier position in the candidate list; `none` when no
candidate is acceptable (the source's `false` return). -/
def negotiate (accept : List (String × Nat)) (cands : List String) :
    Option String :=
  (cands.filter (fun c => qof accept c != 0)).foldl (pickEnc accept) none

/-- The decision point's compression-method computation
(src/index.js lines 150-157): negotiate over gzip/deflate/identity, and if
that picks deflate while gzip is also acceptable, re-negotiate over
gzip/identity instead. -/
def selectMethod (accept : List (String × Nat)) : Option String :=
  let method := negotiate accept ["gzip", "deflate", "identity"]
  if method == some "deflate" && (negotiate accept ["gzip"]).isSome then
    negotiate accept ["gzip", "identity"]
  else
    method

/-- JavaScript truthiness of the numeric `Content-Length` header value:
absent and `0` are falsy. -/
def truthyLen : Option Nat → Bool
  | none => false
  | some n => n != 0

/-- The threshold guard (src/index.js line 131):
`Number(res.getHeader('Content-Length')) < threshold || length < threshold`.
`Number(undefined)` is `NaN` and `undefined < t` is `false`, so an absent
header or absent estimate never satisfies its disjunct. -/
def belowThreshold (t : Int) (cl : Option Nat) (len : Option Nat) : Bool :=
  (match cl with
   | some n => decide ((n : Int) < t)
   | none => false) ||
  (match len with
   | some l => decide ((l : Int) < t)
   | none => false)

/-- `chunkLength` (src/index.js lines 218-226): `undefined` for an absent
chunk, otherwise the chunk's byte length. -/
def chunkLength (chunk : Option Chunk) : Option Nat :=
  chunk.map List.length

/-- `vary(res, 'Accept-Encoding')` (src/index.js line 128), with the
external `vary` helper modelled at its documented interface: append the
field to the `Vary` header unless already present. -/
def addVary (s : ExchangeState) : ExchangeState :=
  { s with headers :=
      { s.headers with vary :=
          if "Accept-Encoding" ∈ s.headers.vary then s.headers.vary
          else s.headers.vary ++ ["Accept-Encoding"] } }

/-- `nocompress` (src/index.js lines 114-118): replay the buffered
listeners onto the original transport via the captured original `on`
(`addListeners(res, on, listeners)`), then null the buffer. -/
def nocompress (s : ExchangeState) : ExchangeState :=
  { s with
    transportListeners := s.transportListeners ++ s.listeners.getD []
    listeners := none }

/-- The compression branch of the decision (src/index.js lines 165-196):
create the codec stream, replay buffered listeners onto it
(`addListeners(stream, stream.on, listeners)` — the buffer is not nulled
on this path), point `res.flush` at the codec, set `Content-Encoding`,
remove `Content-Length`, register the internal codec `data`/`end` pump
handlers, and attach the internal `drain` resume hook to the transport via
the original `on`. -/
def compressSetup (method : String) (s : ExchangeState) : ExchangeState :=
  { s with
    stream := some ⟨method, [],
      false, s.listeners.getD [] ++
        [("data", Handler.pumpData), ("end", Handler.pumpEnd)]⟩
    flushToStream := true
    headers := { s.headers with
      contentEncoding := some method
      contentLength := none }
    transportListeners := s.transportListeners ++ [("drain", Handler.resume)] }

/-- The decision point: the `onHeaders` callback (src/index.js lines
120-197).  Filter check, Vary, threshold guard, already-encoded guard,
HEAD guard, negotiation; every rejecting branch runs `nocompress`, the
surviving branch sets up the codec stream. -/
def onHeadersCallback (cfg : Config) (req : Request) (s : ExchangeState) :
    ExchangeState :=
  if ¬ cfg.filter req s.headers then nocompress s
  else
    let s := addVary s
    if belowThreshold cfg.threshold s.headers.contentLength s.length then
      nocompress s
    else
      let encoding := s.headers.contentEncoding.getD "identity"
      if encoding ≠ "identity" then nocompress s
      else if req.method = "HEAD" then nocompress s
      else
        match selectMethod req.accept with
        | none => nocompress s
        | some m => if m = "identity" then nocompress s else compressSetup m s

/-- `this._implicitHeader()`: when headers are not yet committed, fire the
one-shot `onHeaders` hook and mark headers sent. -/
def implicitHeader (cfg : Config) (req : Request) (s : ExchangeState) :
    ExchangeState :=
  if s.headerSent then s
  else
    let s := onHeadersCallback cfg req s
    { s with headerSent := true }

/-- Proxied `res.write` (src/index.js lines 69-77), with the post-close
`noop` replacement (lines 60-62) folded in as the `closed` guard: commit
headers if needed, then feed the chunk to the codec stream when one
exists, else to the original transport write. -/
def resWrite (cfg : Config) (req : Request) (chunk : Chunk)
    (s : ExchangeState) : ExchangeState :=
  if s.closed then s
  else
    let s := if s.headerSent then s else implicitHeader cfg req s
    match s.stream with
    | some st => { s with stream := some { st with input := st.input ++ [chunk] } }
    | none => { s with transportData := s.transportData ++ [chunk] }

/-- Proxied `res.end` (src/index.js lines 79-97), with the post-close
`noop` replacement folded in: before an uncommitted header, compute the
length estimate from the chunk unless a truthy `Content-Length` header
exists, then commit headers; afterwards delegate to the original `end`
(no codec stream) or feed the final chunk and end the codec's input. -/
def resEnd (cfg : Config) (req : Request) (chunk : Option Chunk)
    (s : ExchangeState) : ExchangeState :=
  if s.closed then s
  else
    let s :=
      if s.headerSent then s
      else
        let s :=
          if truthyLen s.headers.contentLength then s
          else { s with length := chunkLength chunk }
        implicitHeader cfg req s
    match s.stream with
    | none =>
        { s with
          transportData := s.transportData ++ chunk.toList
          transportEnded := true }
    | some st =>
        let st := { st with input := st.input ++ chunk.toList, ended := true }
        { s with stream := some st }

/-- Proxied `res.on` (src/index.js lines 99-112): with a nulled buffer or
a non-`drain` event, pass through to the original `on`; with a codec
stream present, attach to the stream; otherwise buffer the subscription. -/
def resOn (ty : String) (h : Handler) (s : ExchangeState) : ExchangeState :=
  if s.listeners = none ∨ ty ≠ "drain" then
    { s with transportListeners := s.transportListeners ++ [(ty, h)] }
  else
    match s.stream with
    | some st =>
        { s with stream := some { st with listeners := st.listeners ++ [(ty, h)] } }
    | none =>
        { s with listeners := some (s.listeners.getD [] ++ [(ty, h)]) }

/-- The `req.on('close')` handler (src/index.js lines 60-62): from now on
`res.write` and `res.end` are no-ops. -/
def onClose (s : ExchangeState) : ExchangeState :=
  { s with closed := true }

/-- One application-visible action on the proxied response surface. -/
inductive Op where
  | write (chunk : Chunk)
  | endCall (chunk : Option Chunk)
  | subscribe (ty : String) (h : Handler)
  | connClose
deriving DecidableEq, Repr

/-- Whether an action is a `write` or `end` call. -/
def Op.isWriteEnd : Op → Bool
  | .write _ => true
  | .endCall _ => true
  | _ => false

/-- Interpret one action on the exchange state. -/
def step (cfg : Config) (req : Request) (s : ExchangeState) : Op → ExchangeState
  | .write c => resWrite cfg req c s
  | .endCall c => resEnd cfg req c s
  | .subscribe ty h => resOn ty h s
  | .connClose => onClose s

/-- Interpret a sequence of actions. -/
def run (cfg : Config) (req : Request) (s : ExchangeState) (ops : List Op) :
    ExchangeState :=
  ops.foldl (step cfg req) s

/-- State of an exchange right after middleware installation
(src/index.js lines 51-66): headers not committed, no estimate, empty
listener buffer, no codec stream, not closed, `flush` a no-op, transport
untouched. -/
def initState (hdrs : Headers) : ExchangeState :=
  { headerSent := false
    headers := hdrs
    length := none
    listeners := some []
    stream := none
    closed := false
    flushToStream := false
    transportData := []
    transportEnded := false
    transportListeners := [] }

end Compression

namespace Compression

/-! ### Negotiation lemmas -/

/-- One negotiator fold step keeps the accumulator or moves to the new
candidate. -/
theorem pickEnc_cases (a : List (String × Nat)) (acc : Option String)
    (c : String) : pickEnc a acc c = acc ∨ pickEnc a acc c = some c := by
  cases acc with
  | none => exact Or.inr rfl
  | some b =>
      unfold pickEnc
      by_cases h : betterEnc a c b = true
      · exact Or.inr (by simp [h])
      · exact Or.inl (by simp [h])

/-- Folding the negotiator step over a candidate list returns the initial
accumulator or one of the candidates. -/
theorem foldl_pickEnc_cases (a : List (String × Nat)) (l : List String)
    (acc : Option String) :
    List.foldl (pickEnc a) acc l = acc ∨
      ∃ c, c ∈ l ∧ List.foldl (pickEnc a) acc l = some c := by
  induction l generalizing acc with
  | nil => exact Or.inl rfl
  | cons c l ih =>
      rcases ih (pickEnc a acc c) with h | ⟨d, hd, h⟩
      · rcases pickEnc_cases a acc c with hp | hp
        · exact Or.inl (by rw [List.foldl_cons, h, hp])
        · exact Or.inr ⟨c, List.mem_cons_self c l, by rw [List.foldl_cons, h, hp]⟩
      · exact Or.inr ⟨d, List.mem_cons_of_mem c hd, by rw [List.foldl_cons, h]⟩

/-- The negotiator returns `none` or one of the offered candidates. -/
theorem negotiate_none_or_mem (a : List (String × Nat)) (cands : List String) :
    negotiate a cands = none ∨
      ∃ c, c ∈ cands ∧ negotiate a cands = some c := by
  unfold negotiate
  rcases foldl_pickEnc_cases a (cands.filter (fun c => qof a c != 0)) none with
    h | ⟨c, hc, h⟩
  · exact Or.inl h
  · exact Or.inr ⟨c, List.mem_of_mem_filter hc, h⟩

/-- A single acceptable candidate is selected. -/
theorem negotiate_singleton (a : List (String × Nat)) (c : String)
    (h : qof a c ≠ 0) : negotiate a [c] = some c := by
  unfold negotiate
  have hb : (qof a c != 0) = true := bne_iff_ne.mpr h
  simp [hb, pickEnc]

end Compression

namespace Compression

/-- C5 (amended): for a request whose accept-encoding information makes
gzip and deflate equally acceptable, the decision point's negotiated
method is never deflate — a plain-negotiation deflate result is replaced
by re-negotiating over gzip/identity, which cannot yield deflate. -/
theorem gzip_preference_never_deflate (accept : List (String × Nat))
    (hq : qof accept "gzip" = qof accept "deflate")
    (hpos : qof accept "gzip" ≠ 0) :
    selectMethod accept ≠ some "deflate" := by
  have hg : negotiate accept ["gzip"] = some "gzip" :=
    negotiate_singleton accept "gzip" hpos
  by_cases hm :
      negotiate accept ["gzip", "deflate", "identity"] = some "deflate"
  · have hsel : selectMethod accept = negotiate accept ["gzip", "identity"] := by
      simp [selectMethod, hm, hg]
    rw [hsel]
    rcases negotiate_none_or_mem accept ["gzip", "identity"] with h | ⟨c, hc, h⟩
    · simp [h]
    · rw [h]
      intro contra
      injection contra with hcd
      subst hcd
      simp at hc
  · have hne : (negotiate accept ["gzip", "deflate", "identity"] ==
        some "deflate") = false := beq_eq_false_iff_ne.mpr hm
    simpa [selectMethod, hne] using hm

/-- Witness for C5's amended theorem at a concrete accept list. -/
theorem gzip_preference_never_deflate_witness :
    selectMethod [("gzip", 1), ("deflate", 1)] ≠ some "deflate" :=
  gzip_preference_never_deflate [("gzip", 1), ("deflate", 1)]
    (by decide) (by decide)

/-- C5 counterexample: with accept-encoding `deflate;q=1, identity;q=1,
gzip;q=1`, gzip and deflate are equally acceptable and plain negotiation
over gzip/deflate/identity selects deflate, yet the decision point's
negotiated method is identity (so no compression), not gzip. -/
theorem gzip_preference_counterexample :
    qof [("deflate", 1), ("identity", 1), ("gzip", 1)] "gzip" =
      qof [("deflate", 1), ("identity", 1), ("gzip", 1)] "deflate"
    ∧ qof [("deflate", 1), ("identity", 1), ("gzip", 1)] "gzip" ≠ 0
    ∧ negotiate [("deflate", 1), ("identity", 1), ("gzip", 1)]
        ["gzip", "deflate", "identity"] = some "deflate"
    ∧ selectMethod [("deflate", 1), ("identity", 1), ("gzip", 1)] =
        some "identity" :=
  ⟨rfl, by decide, by decide, by decide⟩

end Compression

namespace Compression

/-! ### Decision-point shape lemmas -/

/-- The decision point always lands in one of three shapes: `nocompress`
without Vary (filter rejected), `nocompress` after Vary (a later guard
rejected), or `compressSetup` after Vary with a negotiated non-identity
method. -/
theorem onHeadersCallback_cases (cfg : Config) (req : Request)
    (s : ExchangeState) :
    onHeadersCallback cfg req s = nocompress s
    ∨ onHeadersCallback cfg req s = nocompress (addVary s)
    ∨ ∃ m, selectMethod req.accept = some m ∧ m ≠ "identity" ∧
        onHeadersCallback cfg req s = compressSetup m (addVary s) := by
  unfold onHeadersCallback
  by_cases hf : cfg.filter req s.headers
  · simp only [hf, not_true, if_neg, ite_false]
    by_cases ht :
        belowThreshold cfg.threshold (addVary s).headers.contentLength
          (addVary s).length
    · simp [hf, ht]
    · simp only [hf, ht]
      by_cases he : (addVary s).headers.contentEncoding.getD "identity" ≠ "identity"
      · simp [he]
      · simp only [he, ite_false]
        by_cases hh : req.method = "HEAD"
        · simp [hh, he]
        · cases hsel : selectMethod req.accept with
          | none => simp [hh, he, hsel]
          | some m =>
              by_cases hid : m = "identity"
              · simp [hh, he, hsel, hid]
              · refine Or.inr (Or.inr ⟨m, rfl, hid, ?_⟩)
                simp [hh, he, hsel, hid]
  · simp [hf]

/-- `nocompress` changes only the listener bookkeeping. -/
theorem nocompress_proj (s : ExchangeState) :
    (nocompress s).headerSent = s.headerSent
    ∧ (nocompress s).headers = s.headers
    ∧ (nocompress s).length = s.length
    ∧ (nocompress s).stream = s.stream
    ∧ (nocompress s).closed = s.closed
    ∧ (nocompress s).transportData = s.transportData
    ∧ (nocompress s).transportEnded = s.transportEnded :=
  ⟨rfl, rfl, rfl, rfl, rfl, rfl, rfl⟩

/-- `compressSetup` changes only the stream, flush target, headers
(Content-Encoding set, Content-Length removed) and the internal drain
hook. -/
theorem compressSetup_proj (m : String) (s : ExchangeState) :
    (compressSetup m s).headerSent = s.headerSent
    ∧ (compressSetup m s).length = s.length
    ∧ (compressSetup m s).closed = s.closed
    ∧ (compressSetup m s).transportData = s.transportData
    ∧ (compressSetup m s).transportEnded = s.transportEnded
    ∧ (compressSetup m s).listeners = s.listeners
    ∧ (compressSetup m s).headers.vary = s.headers.vary
    ∧ (compressSetup m s).headers.contentEncoding = some m
    ∧ (compressSetup m s).stream =
        some ⟨m, [], false, s.listeners.getD [] ++
          [("data", Handler.pumpData), ("end", Handler.pumpEnd)]⟩ :=
  ⟨rfl, rfl, rfl, rfl, rfl, rfl, rfl, rfl, rfl⟩

/-- `addVary` changes only the `Vary` header. -/
theorem addVary_proj (s : ExchangeState) :
    (addVary s).headerSent = s.headerSent
    ∧ (addVary s).headers.contentLength = s.headers.contentLength
    ∧ (addVary s).headers.contentEncoding = s.headers.contentEncoding
    ∧ (addVary s).headers.contentType = s.headers.contentType
    ∧ (addVary s).length = s.length
    ∧ (addVary s).listeners = s.listeners
    ∧ (addVary s).stream = s.stream
    ∧ (addVary s).closed = s.closed
    ∧ (addVary s).transportData = s.transportData
    ∧ (addVary s).transportEnded = s.transportEnded
    ∧ (addVary s).transportListeners = s.transportListeners :=
  ⟨rfl, rfl, rfl, rfl, rfl, rfl, rfl, rfl, rfl, rfl, rfl⟩

/-- The decision point never touches the `length` estimate. -/
theorem onHeadersCallback_length (cfg : Config) (req : Request)
    (s : ExchangeState) :
    (onHeadersCallback cfg req s).length = s.length := by
  rcases onHeadersCallback_cases cfg req s with h | h | ⟨m, _, _, h⟩ <;> rw [h] <;> rfl

/-- The decision point never writes body bytes to the transport. -/
theorem onHeadersCallback_transportData (cfg : Config) (req : Request)
    (s : ExchangeState) :
    (onHeadersCallback cfg req s).transportData = s.transportData := by
  rcases onHeadersCallback_cases cfg req s with h | h | ⟨m, _, _, h⟩ <;> rw [h] <;> rfl

/-- A codec stream created by the decision point starts with empty input. -/
theorem onHeadersCallback_stream_input (cfg : Config) (req : Request)
    (s : ExchangeState) (st : CodecState) (hs : s.stream = none)
    (h : (onHeadersCallback cfg req s).stream = some st) : st.input = [] := by
  rcases onHeadersCallback_cases cfg req s with hc | hc | ⟨m, _, _, hc⟩ <;>
    rw [hc] at h
  · simp [nocompress, hs] at h
  · simp [nocompress, addVary, hs] at h
  · simp [compressSetup] at h
    rw [← h]

end Compression

namespace Compression

/-- With the filter rejecting, the decision is `nocompress` and Vary is
not touched (the source returns before `vary(res, ...)`). -/
theorem decision_nocompress_filtered (cfg : Config) (req : Request)
    (s : ExchangeState) (hf : cfg.filter req s.headers = false) :
    onHeadersCallback cfg req s = nocompress s := by
  simp [onHeadersCallback, hf]

/-- With the filter passing and the threshold guard firing, the decision
is `nocompress` after Vary. -/
theorem decision_nocompress_threshold (cfg : Config) (req : Request)
    (s : ExchangeState) (hf : cfg.filter req s.headers = true)
    (ht : belowThreshold cfg.threshold s.headers.contentLength s.length = true) :
    onHeadersCallback cfg req s = nocompress (addVary s) := by
  have ht' : belowThreshold cfg.threshold (addVary s).headers.contentLength
      (addVary s).length = true := ht
  simp [onHeadersCallback, hf, ht']

/-- With every guard passed — filter accepts, length not below threshold,
no prior Content-Encoding, not HEAD, negotiation yields a non-identity
method — the decision is `compressSetup` after Vary. -/
theorem decision_compress (cfg : Config) (req : Request) (s : ExchangeState)
    (m : String) (hf : cfg.filter req s.headers = true)
    (ht : belowThreshold cfg.threshold s.headers.contentLength s.length = false)
    (hce : s.headers.contentEncoding.getD "identity" = "identity")
    (hhead : req.method ≠ "HEAD")
    (hneg : selectMethod req.accept = some m)
    (hm : m ≠ "identity") :
    onHeadersCallback cfg req s = compressSetup m (addVary s) := by
  have ht' : belowThreshold cfg.threshold (addVary s).headers.contentLength
      (addVary s).length = false := ht
  have hce' : (addVary s).headers.contentEncoding.getD "identity" = "identity" := hce
  simp [onHeadersCallback, hf, ht', hce', hhead, hneg, hm]

/-- With the filter passing, the length guard not firing, and a
non-identity Content-Encoding already declared, the decision is
`nocompress` after Vary. -/
theorem decision_nocompress_encoded (cfg : Config) (req : Request)
    (s : ExchangeState) (hf : cfg.filter req s.headers = true)
    (ht : belowThreshold cfg.threshold s.headers.contentLength s.length = false)
    (hce : s.headers.contentEncoding.getD "identity" ≠ "identity") :
    onHeadersCallback cfg req s = nocompress (addVary s) := by
  have ht' : belowThreshold cfg.threshold (addVary s).headers.contentLength
      (addVary s).length = false := ht
  have hce' : (addVary s).headers.contentEncoding.getD "identity" ≠ "identity" := hce
  simp [onHeadersCallback, hf, ht', hce']

/-- With the earlier guards passed but a HEAD request, the decision is
`nocompress` after Vary. -/
theorem decision_nocompress_head (cfg : Config) (req : Request)
    (s : ExchangeState) (hf : cfg.filter req s.headers = true)
    (ht : belowThreshold cfg.threshold s.headers.contentLength s.length = false)
    (hce : s.headers.contentEncoding.getD "identity" = "identity")
    (hh : req.method = "HEAD") :
    onHeadersCallback cfg req s = nocompress (addVary s) := by
  have ht' : belowThreshold cfg.threshold (addVary s).headers.contentLength
      (addVary s).length = false := ht
  have hce' : (addVary s).headers.contentEncoding.getD "identity" = "identity" := hce
  simp [onHeadersCallback, hf, ht', hce', hh]

/-- With the earlier guards passed but negotiation failing (no method or
identity), the decision is `nocompress` after Vary. -/
theorem decision_nocompress_noneg (cfg : Config) (req : Request)
    (s : ExchangeState) (hf : cfg.filter req s.headers = true)
    (ht : belowThreshold cfg.threshold s.headers.contentLength s.length = false)
    (hce : s.headers.contentEncoding.getD "identity" = "identity")
    (hh : req.method ≠ "HEAD")
    (hneg : selectMethod req.accept = none ∨
      selectMethod req.accept = some "identity") :
    onHeadersCallback cfg req s = nocompress (addVary s) := by
  have ht' : belowThreshold cfg.threshold (addVary s).headers.contentLength
      (addVary s).length = false := ht
  have hce' : (addVary s).headers.contentEncoding.getD "identity" = "identity" := hce
  rcases hneg with hneg | hneg <;> simp [onHeadersCallback, hf, ht', hce', hh, hneg]

/-- C1: for an otherwise-eligible exchange whose body length `L` is known
to the decision point — through a `Content-Length` header or through the
estimate computed at `end` time — a length of exactly `threshold - 1`
leaves the exchange uncompressed (no Content-Encoding header is set, no
codec stream is created), and a length of exactly `threshold` results in
compression (Content-Encoding set to the negotiated method, codec stream
created). -/
theorem threshold_boundary (cfg : Config) (req : Request) (s : ExchangeState)
    (m : String) (L : Nat)
    (hfilter : cfg.filter req s.headers = true)
    (hce : s.headers.contentEncoding = none)
    (hhead : req.method ≠ "HEAD")
    (hneg : selectMethod req.accept = some m)
    (hm : m ≠ "identity")
    (hs : s.stream = none)
    (hknown : (s.headers.contentLength = some L ∧ s.length = none) ∨
      (s.headers.contentLength = none ∧ s.length = some L)) :
    ((L : Int) = cfg.threshold - 1 →
      (onHeadersCallback cfg req s).stream = none ∧
      (onHeadersCallback cfg req s).headers.contentEncoding = none) ∧
    ((L : Int) = cfg.threshold →
      (onHeadersCallback cfg req s).headers.contentEncoding = some m ∧
      (onHeadersCallback cfg req s).stream.isSome = true) := by
  constructor
  · intro hL
    have ht : belowThreshold cfg.threshold s.headers.contentLength s.length
        = true := by
      rcases hknown with ⟨hcl, hlen⟩ | ⟨hcl, hlen⟩ <;>
        simp [belowThreshold, hcl, hlen] <;> omega
    rw [decision_nocompress_threshold cfg req s hfilter ht]
    exact ⟨hs, hce⟩
  · intro hL
    have ht : belowThreshold cfg.threshold s.headers.contentLength s.length
        = false := by
      rcases hknown with ⟨hcl, hlen⟩ | ⟨hcl, hlen⟩ <;>
        simp [belowThreshold, hcl, hlen] <;> omega
    rw [decision_compress cfg req s m hfilter ht (by simp [hce]) hhead hneg hm]
    exact ⟨rfl, rfl⟩

/-- Witness for C1 at threshold 1024: a known Content-Length of 1023
yields no compression; re-run with Content-Length 1024 yields compression
with gzip. -/
theorem threshold_boundary_witness :
    ((onHeadersCallback ⟨1024, fun _ _ => true⟩ ⟨"GET", [("gzip", 1)]⟩
        (initState ⟨some 1023, none, some "text/html", []⟩)).stream = none ∧
      (onHeadersCallback ⟨1024, fun _ _ => true⟩ ⟨"GET", [("gzip", 1)]⟩
        (initState ⟨some 1023, none, some "text/html", []⟩)).headers.contentEncoding = none) ∧
    ((onHeadersCallback ⟨1024, fun _ _ => true⟩ ⟨"GET", [("gzip", 1)]⟩
        (initState ⟨some 1024, none, some "text/html", []⟩)).headers.contentEncoding = some "gzip" ∧
      (onHeadersCallback ⟨1024, fun _ _ => true⟩ ⟨"GET", [("gzip", 1)]⟩
        (initState ⟨some 1024, none, some "text/html", []⟩)).stream.isSome = true) :=
  ⟨(threshold_boundary ⟨1024, fun _ _ => true⟩ ⟨"GET", [("gzip", 1)]⟩
      (initState ⟨some 1023, none, some "text/html", []⟩) "gzip" 1023
      rfl rfl (by decide) (by decide) (by decide) rfl
      (Or.inl ⟨rfl, rfl⟩)).1 (by decide),
   (threshold_boundary ⟨1024, fun _ _ => true⟩ ⟨"GET", [("gzip", 1)]⟩
      (initState ⟨some 1024, none, some "text/html", []⟩) "gzip" 1024
      rfl rfl (by decide) (by decide) (by decide) rfl
      (Or.inl ⟨rfl, rfl⟩)).2 (by decide)⟩

/-- C10: for a response with no Content-Type header, the default filter
`shouldCompress` returns `false`, and under the default filter the
decision point takes the no-compression path (no codec stream, headers
untouched — not even Vary). -/
theorem no_content_type_not_compressed (compFn : String → Bool) (t : Int)
    (req : Request) (s : ExchangeState)
    (hct : s.headers.contentType = none) :
    shouldCompress compFn req s.headers = false
    ∧ (onHeadersCallback ⟨t, shouldCompress compFn⟩ req s).stream = s.stream
    ∧ (onHeadersCallback ⟨t, shouldCompress compFn⟩ req s).headers = s.headers := by
  have hf : shouldCompress compFn req s.headers = false := by
    simp [shouldCompress, hct]
  have hd := decision_nocompress_filtered ⟨t, shouldCompress compFn⟩ req s hf
  rw [hd]
  exact ⟨hf, rfl, rfl⟩

/-- Witness for C10 at a concrete exchange with no Content-Type. -/
theorem no_content_type_not_compressed_witness :
    shouldCompress (fun _ => true) ⟨"GET", [("gzip", 1)]⟩
      (initState ⟨none, none, none, []⟩).headers = false
    ∧ (onHeadersCallback ⟨1024, shouldCompress (fun _ => true)⟩
        ⟨"GET", [("gzip", 1)]⟩ (initState ⟨none, none, none, []⟩)).stream =
        (initState ⟨none, none, none, []⟩).stream
    ∧ (onHeadersCallback ⟨1024, shouldCompress (fun _ => true)⟩
        ⟨"GET", [("gzip", 1)]⟩ (initState ⟨none, none, none, []⟩)).headers =
        (initState ⟨none, none, none, []⟩).headers :=
  no_content_type_not_compressed (fun _ => true) 1024 ⟨"GET", [("gzip", 1)]⟩
    (initState ⟨none, none, none, []⟩) rfl

end Compression

namespace Compression

/-- C3 counterexample: construction succeeds both for an unparseable
threshold option (the `bytes.parse` null result silently falls back to
the default 1024) and for a below-zero threshold (accepted as-is); it
never rejects. -/
theorem threshold_validation_counterexample :
    thresholdOf (compressionInit (fun _ => true) none none) = some 1024
    ∧ thresholdOf (compressionInit (fun _ => true) none (some (-5))) =
        some (-5) :=
  ⟨rfl, rfl⟩

/-- C3 (amended): construction never rejects; the effective threshold is
the parse result when one exists (negative values included, unvalidated)
and the default 1024 when the option was absent or unparseable. -/
theorem threshold_option_never_rejects (compFn : String → Bool)
    (f : Option (Request → Headers → Bool)) (p : Option Int) :
    thresholdOf (compressionInit compFn f p) = some (p.getD 1024) := rfl

/-- C7 counterexample: an exchange reaching the decision point whose
filter (here the default, with no Content-Type set) rejects it gets no
Accept-Encoding entry added to Vary — the source adds Vary only after the
filter guard. -/
theorem vary_filtered_counterexample :
    shouldCompress (fun _ => true) ⟨"GET", [("gzip", 1)]⟩
      (initState ⟨none, none, none, []⟩).headers = false
    ∧ (onHeadersCallback ⟨1024, shouldCompress (fun _ => true)⟩
        ⟨"GET", [("gzip", 1)]⟩
        (initState ⟨none, none, none, []⟩)).headers.vary = [] :=
  ⟨rfl, rfl⟩

/-- C7 (amended): for every exchange reaching the decision point that
passes the eligibility filter, an Accept-Encoding entry is present in the
outbound Vary header afterwards, regardless of the final
compress/no-compress outcome; a filter-rejected exchange gets none. -/
theorem vary_added_after_filter (cfg : Config) (req : Request)
    (s : ExchangeState) (hf : cfg.filter req s.headers = true) :
    "Accept-Encoding" ∈ (onHeadersCallback cfg req s).headers.vary := by
  have hmem : "Accept-Encoding" ∈ (addVary s).headers.vary := by
    by_cases h : "Accept-Encoding" ∈ s.headers.vary <;> simp [addVary, h]
  cases ht : belowThreshold cfg.threshold s.headers.contentLength s.length with
  | true =>
      rw [decision_nocompress_threshold cfg req s hf ht]
      exact hmem
  | false =>
      by_cases hce : s.headers.contentEncoding.getD "identity" = "identity"
      · by_cases hh : req.method = "HEAD"
        · rw [decision_nocompress_head cfg req s hf ht hce hh]
          exact hmem
        · cases hneg : selectMethod req.accept with
          | none =>
              rw [decision_nocompress_noneg cfg req s hf ht hce hh (Or.inl hneg)]
              exact hmem
          | some m =>
              by_cases hid : m = "identity"
              · rw [decision_nocompress_noneg cfg req s hf ht hce hh
                  (Or.inr (by rw [hneg, hid]))]
                exact hmem
              · rw [decision_compress cfg req s m hf ht hce hh hneg hid]
                exact hmem
      · rw [decision_nocompress_encoded cfg req s hf ht hce]
        exact hmem

/-- Witness for C7's amended theorem: a passing filter yields a Vary
entry on the no-compression (HEAD) path. -/
theorem vary_added_after_filter_witness :
    "Accept-Encoding" ∈ (onHeadersCallback ⟨1024, fun _ _ => true⟩
      ⟨"HEAD", [("gzip", 1)]⟩
      (initState ⟨none, none, some "text/html", []⟩)).headers.vary :=
  vary_added_after_filter ⟨1024, fun _ _ => true⟩ ⟨"HEAD", [("gzip", 1)]⟩
    (initState ⟨none, none, some "text/html", []⟩) rfl

end Compression

namespace Compression

/-- Before headers commit, `_implicitHeader` runs the decision callback
and marks headers sent. -/
theorem implicitHeader_false (cfg : Config) (req : Request)
    (s : ExchangeState) (hh : s.headerSent = false) :
    implicitHeader cfg req s =
      { onHeadersCallback cfg req s with headerSent := true } := by
  simp [implicitHeader, hh]

/-- C2 counterexample: an eligible exchange, threshold 1024, whose
application writes a 5-byte chunk before headers commit and then calls
`end()`: the length compared against the threshold does not account for
the chunk — the estimate stays `none` — and compression is applied even
though only 5 bytes (far below the threshold) were ever submitted. -/
theorem write_length_estimate_counterexample :
    (run ⟨1024, fun _ _ => true⟩ ⟨"GET", [("gzip", 1)]⟩
      (initState ⟨none, none, some "text/html", []⟩)
      [Op.write [0, 1, 2, 3, 4], Op.endCall none]).length = none
    ∧ (run ⟨1024, fun _ _ => true⟩ ⟨"GET", [("gzip", 1)]⟩
      (initState ⟨none, none, some "text/html", []⟩)
      [Op.write [0, 1, 2, 3, 4], Op.endCall none]).headers.contentEncoding =
        some "gzip"
    ∧ (run ⟨1024, fun _ _ => true⟩ ⟨"GET", [("gzip", 1)]⟩
      (initState ⟨none, none, some "text/html", []⟩)
      [Op.write [0, 1, 2, 3, 4], Op.endCall none]).stream.isSome = true :=
  ⟨rfl, rfl, rfl⟩

/-- C2 (amended): a chunk passed to `write` before headers commit is not
represented in the computed length estimate — the estimate stays `none`,
so the threshold rule cannot fire on its account — but the chunk itself
is not dropped: it is forwarded to whichever target the decision selects
(the fresh codec stream's input, or the original transport). -/
theorem write_before_decision (cfg : Config) (req : Request) (c : Chunk)
    (s : ExchangeState) (hh : s.headerSent = false) (hc : s.closed = false)
    (hs : s.stream = none) (hl : s.length = none) :
    (resWrite cfg req c s).length = none
    ∧ ((resWrite cfg req c s).stream = none →
        (resWrite cfg req c s).transportData = s.transportData ++ [c])
    ∧ (∀ st, (resWrite cfg req c s).stream = some st → st.input = [c]) := by
  cases hst : (onHeadersCallback cfg req s).stream with
  | none =>
      have hr : resWrite cfg req c s =
          { onHeadersCallback cfg req s with
            headerSent := true
            transportData := (onHeadersCallback cfg req s).transportData ++ [c] } := by
        simp [resWrite, hc, hh, implicitHeader, hst]
      rw [hr]
      refine ⟨?_, fun _ => ?_, fun st hcon => ?_⟩
      · show (onHeadersCallback cfg req s).length = none
        rw [onHeadersCallback_length cfg req s, hl]
      · show (onHeadersCallback cfg req s).transportData ++ [c] =
          s.transportData ++ [c]
        rw [onHeadersCallback_transportData cfg req s]
      · have hcon' : (onHeadersCallback cfg req s).stream = some st := hcon
        rw [hst] at hcon'
        cases hcon'
  | some st0 =>
      have hr : resWrite cfg req c s =
          { onHeadersCallback cfg req s with
            headerSent := true
            stream := some { st0 with input := st0.input ++ [c] } } := by
        simp [resWrite, hc, hh, implicitHeader, hst]
      have hinput : st0.input = [] :=
        onHeadersCallback_stream_input cfg req s st0 hs hst
      rw [hr]
      refine ⟨?_, fun habs => ?_, fun st hcon => ?_⟩
      · show (onHeadersCallback cfg req s).length = none
        rw [onHeadersCallback_length cfg req s, hl]
      · cases habs
      · have h3 : some { st0 with input := st0.input ++ [c] } = some st := hcon
        injection h3 with h4
        rw [← h4]
        show st0.input ++ [c] = [c]
        rw [hinput]
        rfl

/-- Witness for C2's amended theorem at a concrete eligible exchange. -/
theorem write_before_decision_witness :
    (resWrite ⟨1024, fun _ _ => true⟩ ⟨"GET", [("gzip", 1)]⟩ [9, 9, 9]
      (initState ⟨none, none, some "text/html", []⟩)).length = none
    ∧ ((resWrite ⟨1024, fun _ _ => true⟩ ⟨"GET", [("gzip", 1)]⟩ [9, 9, 9]
        (initState ⟨none, none, some "text/html", []⟩)).stream = none →
        (resWrite ⟨1024, fun _ _ => true⟩ ⟨"GET", [("gzip", 1)]⟩ [9, 9, 9]
          (initState ⟨none, none, some "text/html", []⟩)).transportData =
          (initState ⟨none, none, some "text/html", []⟩).transportData ++ [[9, 9, 9]])
    ∧ (∀ st, (resWrite ⟨1024, fun _ _ => true⟩ ⟨"GET", [("gzip", 1)]⟩ [9, 9, 9]
        (initState ⟨none, none, some "text/html", []⟩)).stream = some st →
        st.input = [[9, 9, 9]]) :=
  write_before_decision ⟨1024, fun _ _ => true⟩ ⟨"GET", [("gzip", 1)]⟩ [9, 9, 9]
    (initState ⟨none, none, some "text/html", []⟩) rfl rfl rfl rfl

/-- C4 counterexample: an otherwise-eligible exchange at the default
threshold 1024, with no Content-Length header, whose application calls
`end()` with no chunk before headers commit: the estimated length is
`undefined` (`none`), not 0, and the exchange takes the compression path
(gzip is applied to the empty body), not the no-compression path. -/
theorem end_without_chunk_counterexample :
    (run ⟨1024, fun _ _ => true⟩ ⟨"GET", [("gzip", 1)]⟩
      (initState ⟨none, none, some "text/html", []⟩)
      [Op.endCall none]).length = none
    ∧ (run ⟨1024, fun _ _ => true⟩ ⟨"GET", [("gzip", 1)]⟩
      (initState ⟨none, none, some "text/html", []⟩)
      [Op.endCall none]).headers.contentEncoding = some "gzip"
    ∧ (run ⟨1024, fun _ _ => true⟩ ⟨"GET", [("gzip", 1)]⟩
      (initState ⟨none, none, some "text/html", []⟩)
      [Op.endCall none]).stream.isSome = true :=
  ⟨rfl, rfl, rfl⟩

end Compression

namespace Compression

/-- C4 (amended): when `end` is called before headers commit with no
chunk and no Content-Length header, the estimated length is `undefined`
(`none`), not 0, so the threshold rule does not fire at any threshold and
an otherwise-eligible exchange takes the compression path: the codec
stream is created (and immediately ended on empty input) and
Content-Encoding is set to the negotiated method. -/
theorem end_without_chunk_compresses (cfg : Config) (req : Request)
    (s : ExchangeState) (m : String)
    (hh : s.headerSent = false) (hc : s.closed = false) (hs : s.stream = none)
    (hcl : s.headers.contentLength = none)
    (hf : cfg.filter req s.headers = true)
    (hce : s.headers.contentEncoding = none)
    (hhead : req.method ≠ "HEAD")
    (hneg : selectMethod req.accept = some m) (hm : m ≠ "identity") :
    (resEnd cfg req none s).length = none
    ∧ (resEnd cfg req none s).headers.contentEncoding = some m
    ∧ (resEnd cfg req none s).stream.isSome = true := by
  have hdec : onHeadersCallback cfg req
        { s with headerSent := false, closed := false, length := none } =
      compressSetup m (addVary
        { s with headerSent := false, closed := false, length := none }) := by
    apply decision_compress
    · exact hf
    · show belowThreshold cfg.threshold s.headers.contentLength none = false
      rw [hcl]
      rfl
    · show s.headers.contentEncoding.getD "identity" = "identity"
      rw [hce]
      rfl
    · exact hhead
    · exact hneg
    · exact hm
  refine ⟨?_, ?_, ?_⟩ <;>
    simp [resEnd, hc, hh, implicitHeader, truthyLen, hcl, chunkLength, hdec,
      compressSetup, addVary]

/-- Witness for C4's amended theorem at a concrete eligible exchange. -/
theorem end_without_chunk_compresses_witness :
    (resEnd ⟨1024, fun _ _ => true⟩ ⟨"GET", [("gzip", 1)]⟩ none
      (initState ⟨none, none, some "text/html", []⟩)).length = none
    ∧ (resEnd ⟨1024, fun _ _ => true⟩ ⟨"GET", [("gzip", 1)]⟩ none
      (initState ⟨none, none, some "text/html", []⟩)).headers.contentEncoding =
        some "gzip"
    ∧ (resEnd ⟨1024, fun _ _ => true⟩ ⟨"GET", [("gzip", 1)]⟩ none
      (initState ⟨none, none, some "text/html", []⟩)).stream.isSome = true :=
  end_without_chunk_compresses ⟨1024, fun _ _ => true⟩ ⟨"GET", [("gzip", 1)]⟩
    (initState ⟨none, none, some "text/html", []⟩) "gzip"
    rfl rfl rfl rfl rfl rfl (by decide) (by decide) (by decide)

/-- C9 counterexample: with a Content-Length header set by the
application — to the numeric value 0, which the source's truthiness guard
`!this.getHeader('Content-Length')` treats as unset — the end-time length
estimate IS computed from the end chunk. -/
theorem content_length_zero_counterexample :
    (initState ⟨some 0, none, some "text/html", []⟩).headers.contentLength =
      some 0
    ∧ (resEnd ⟨1024, fun _ _ => true⟩ ⟨"GET", [("gzip", 1)]⟩
        (some [0, 1, 2, 3, 4])
        (initState ⟨some 0, none, some "text/html", []⟩)).length = some 5 :=
  ⟨rfl, rfl⟩

/-- C9 (amended): if the application has set a Content-Length header with
a truthy (nonzero) value before `end`, the length estimate is never
computed from the end chunk (`length` is left untouched), and the
decision is independent of the end chunk: two `end` calls with different
chunks produce the same compress/no-compress outcome and the same
Content-Encoding, determined by the header's numeric value alone. -/
theorem content_length_authoritative (cfg : Config) (req : Request)
    (c1 c2 : Chunk) (s : ExchangeState) (n : Nat)
    (hcl : s.headers.contentLength = some n) (hn : n ≠ 0)
    (hh : s.headerSent = false) (hc : s.closed = false) :
    (resEnd cfg req (some c1) s).length = s.length
    ∧ (resEnd cfg req (some c1) s).stream.isSome =
        (resEnd cfg req (some c2) s).stream.isSome
    ∧ (resEnd cfg req (some c1) s).headers.contentEncoding =
        (resEnd cfg req (some c2) s).headers.contentEncoding := by
  have hT : truthyLen s.headers.contentLength = true := by
    simp [truthyLen, hcl, hn]
  cases hst : (onHeadersCallback cfg req s).stream with
  | none =>
      have hr1 : resEnd cfg req (some c1) s =
          { onHeadersCallback cfg req s with
            headerSent := true
            transportData := (onHeadersCallback cfg req s).transportData ++ [c1]
            transportEnded := true } := by
        simp [resEnd, hc, hh, hT, implicitHeader, hst]
      have hr2 : resEnd cfg req (some c2) s =
          { onHeadersCallback cfg req s with
            headerSent := true
            transportData := (onHeadersCallback cfg req s).transportData ++ [c2]
            transportEnded := true } := by
        simp [resEnd, hc, hh, hT, implicitHeader, hst]
      rw [hr1, hr2]
      exact ⟨onHeadersCallback_length cfg req s, rfl, rfl⟩
  | some st =>
      have hr1 : resEnd cfg req (some c1) s =
          { onHeadersCallback cfg req s with
            headerSent := true
            stream := some { st with input := st.input ++ [c1], ended := true } } := by
        simp [resEnd, hc, hh, hT, implicitHeader, hst]
      have hr2 : resEnd cfg req (some c2) s =
          { onHeadersCallback cfg req s with
            headerSent := true
            stream := some { st with input := st.input ++ [c2], ended := true } } := by
        simp [resEnd, hc, hh, hT, implicitHeader, hst]
      rw [hr1, hr2]
      exact ⟨onHeadersCallback_length cfg req s, rfl, rfl⟩

/-- Witness for C9's amended theorem: Content-Length 2048 set, two `end`
chunks of different sizes. -/
theorem content_length_authoritative_witness :
    (resEnd ⟨1024, fun _ _ => true⟩ ⟨"GET", [("gzip", 1)]⟩ (some [7])
      (initState ⟨some 2048, none, some "text/html", []⟩)).length =
      (initState ⟨some 2048, none, some "text/html", []⟩).length
    ∧ (resEnd ⟨1024, fun _ _ => true⟩ ⟨"GET", [("gzip", 1)]⟩ (some [7])
      (initState ⟨some 2048, none, some "text/html", []⟩)).stream.isSome =
      (resEnd ⟨1024, fun _ _ => true⟩ ⟨"GET", [("gzip", 1)]⟩
        (some [7, 7, 7, 7, 7])
        (initState ⟨some 2048, none, some "text/html", []⟩)).stream.isSome
    ∧ (resEnd ⟨1024, fun _ _ => true⟩ ⟨"GET", [("gzip", 1)]⟩ (some [7])
      (initState ⟨some 2048, none, some "text/html", []⟩)).headers.contentEncoding =
      (resEnd ⟨1024, fun _ _ => true⟩ ⟨"GET", [("gzip", 1)]⟩
        (some [7, 7, 7, 7, 7])
        (initState ⟨some 2048, none, some "text/html", []⟩)).headers.contentEncoding :=
  content_length_authoritative ⟨1024, fun _ _ => true⟩ ⟨"GET", [("gzip", 1)]⟩
    [7] [7, 7, 7, 7, 7] (initState ⟨some 2048, none, some "text/html", []⟩)
    2048 rfl (by decide) rfl rfl

/-- C6: after the connection-closed signal has fired, any sequence of
`write`/`end` calls leaves the exchange state — transport output and
codec stream included — completely unchanged (the source replaces both
methods with `noop`), and the model is total, so no error is raised. -/
theorem post_close_noop (cfg : Config) (req : Request) (ops : List Op)
    (s : ExchangeState) (hc : s.closed = true)
    (hops : ∀ op ∈ ops, op.isWriteEnd = true) :
    run cfg req s ops = s := by
  induction ops with
  | nil => rfl
  | cons op rest ih =>
      have h1 : step cfg req s op = s := by
        cases op with
        | write c => simp [step, resWrite, hc]
        | endCall c => simp [step, resEnd, hc]
        | subscribe ty h =>
            exact absurd (hops _ (List.mem_cons_self _ _)) (by simp [Op.isWriteEnd])
        | connClose =>
            exact absurd (hops _ (List.mem_cons_self _ _)) (by simp [Op.isWriteEnd])
      show List.foldl (step cfg req) (step cfg req s op) rest = s
      rw [h1]
      exact ih (fun op hop => hops op (List.mem_cons_of_mem _ hop))

/-- Witness for C6: three post-close write/end calls at a concrete closed
exchange leave the state untouched. -/
theorem post_close_noop_witness :
    run ⟨1024, fun _ _ => true⟩ ⟨"GET", [("gzip", 1)]⟩
      { initState ⟨none, none, some "text/html", []⟩ with closed := true }
      [Op.write [0], Op.endCall (some [1]), Op.write [2]] =
      { initState ⟨none, none, some "text/html", []⟩ with closed := true } :=
  post_close_noop ⟨1024, fun _ _ => true⟩ ⟨"GET", [("gzip", 1)]⟩
    [Op.write [0], Op.endCall (some [1]), Op.write [2]]
    { initState ⟨none, none, some "text/html", []⟩ with closed := true }
    rfl (by decide)

end Compression

namespace Compression

/-- C8: pre-decision drain bookkeeping.  A drain subscription made before
the decision is appended to the buffer; at the decision, the buffered
subscriptions are replayed in original order, exactly once — onto the
original transport on the no-compression path (where the buffer is then
nulled), or onto the fresh codec stream on the compression path (ahead of
the middleware's own internal `data`/`end` pump handlers, with only the
internal drain resume hook added to the transport); subscriptions to any
other event type pass through to the original subscription mechanism
unmodified. -/
theorem drain_listener_replay (cfg : Config) (req : Request)
    (s : ExchangeState) (L : List (String × Handler))
    (hbuf : s.listeners = some L) (hs : s.stream = none) :
    ((onHeadersCallback cfg req s).stream = none →
      (onHeadersCallback cfg req s).transportListeners =
        s.transportListeners ++ L
      ∧ (onHeadersCallback cfg req s).listeners = none)
    ∧ (∀ st, (onHeadersCallback cfg req s).stream = some st →
      st.listeners = L ++ [("data", Handler.pumpData), ("end", Handler.pumpEnd)]
      ∧ (onHeadersCallback cfg req s).transportListeners =
          s.transportListeners ++ [("drain", Handler.resume)])
    ∧ (∀ ty h, ty ≠ "drain" →
      resOn ty h s =
        { s with transportListeners := s.transportListeners ++ [(ty, h)] })
    ∧ (∀ h, resOn "drain" h s =
      { s with listeners := some (L ++ [("drain", h)]) }) := by
  refine ⟨?_, ?_, ?_, ?_⟩
  · intro hnone
    rcases onHeadersCallback_cases cfg req s with hc | hc | ⟨m, _, _, hc⟩
    · rw [hc]
      constructor
      · show s.transportListeners ++ s.listeners.getD [] =
          s.transportListeners ++ L
        rw [hbuf]
        rfl
      · rfl
    · rw [hc]
      constructor
      · show s.transportListeners ++ s.listeners.getD [] =
          s.transportListeners ++ L
        rw [hbuf]
        rfl
      · rfl
    · rw [hc] at hnone
      exact absurd hnone (by simp [compressSetup])
  · intro st hst
    rcases onHeadersCallback_cases cfg req s with hc | hc | ⟨m, _, _, hc⟩
    · rw [hc] at hst
      have hst' : s.stream = some st := hst
      rw [hs] at hst'
      cases hst'
    · rw [hc] at hst
      have hst' : s.stream = some st := hst
      rw [hs] at hst'
      cases hst'
    · rw [hc] at hst
      have h3 : some (⟨m, [], false, s.listeners.getD [] ++
          [("data", Handler.pumpData), ("end", Handler.pumpEnd)]⟩ : CodecState) =
          some st := hst
      injection h3 with h4
      constructor
      · rw [← h4]
        show s.listeners.getD [] ++
          [("data", Handler.pumpData), ("end", Handler.pumpEnd)] =
          L ++ [("data", Handler.pumpData), ("end", Handler.pumpEnd)]
        rw [hbuf]
        rfl
      · rw [hc]
        rfl
  · intro ty h hty
    unfold resOn
    rw [if_pos (Or.inr hty)]
  · intro h
    have hcond : ¬(s.listeners = none ∨ "drain" ≠ "drain") := by
      rintro (h1 | h2)
      · rw [hbuf] at h1
        cases h1
      · exact h2 rfl
    unfold resOn
    rw [if_neg hcond]
    simp [hs, hbuf]

/-- Witness for C8 at a concrete exchange with one buffered drain
listener and a rejecting filter (no-compression path): the listener is
replayed onto the transport exactly once and the buffer is nulled. -/
theorem drain_listener_replay_witness :
    (onHeadersCallback ⟨1024, fun _ _ => false⟩ ⟨"GET", [("gzip", 1)]⟩
      { initState ⟨none, none, some "text/html", []⟩ with
        listeners := some [("drain", Handler.app 7)] }).transportListeners =
      ({ initState ⟨none, none, some "text/html", []⟩ with
        listeners := some [("drain", Handler.app 7)]} :
          ExchangeState).transportListeners ++ [("drain", Handler.app 7)]
    ∧ (onHeadersCallback ⟨1024, fun _ _ => false⟩ ⟨"GET", [("gzip", 1)]⟩
      { initState ⟨none, none, some "text/html", []⟩ with
        listeners := some [("drain", Handler.app 7)] }).listeners = none :=
  (drain_listener_replay ⟨1024, fun _ _ => false⟩ ⟨"GET", [("gzip", 1)]⟩
    { initState ⟨none, none, some "text/html", []⟩ with
      listeners := some [("drain", Handler.app 7)] }
    [("drain", Handler.app 7)] rfl rfl).1 rfl

end Compression
